import Mathlib

/-!
Verification of the Clarprice gamified prediction-market settlement engine.

The definitions below are a shallow embedding of the Clarity contract
`prediction-market` (the core of the repository): the markets map, the bets
map, the per-user statistics, the treasury, and the five public operations
create-market, resolve-market, place-bet, claim-winnings and fund-treasury,
together with the read-only accessor get-user-stats and the private helper
calculate-multiplier.  Clarity uints are modelled as Nat (uint overflow
aborts the transaction on the real chain and is not exercised by any theorem
here); principals are modelled as an abstract index type; string-ascii
values are modelled as String.  A public function either returns ok with
the updated ledger state or an error code, in which case the virtual
machine discards every state change of the call (all-or-nothing semantics).
-/

namespace Clarprice

/-- Principals (account identities) are modelled as natural-number indices. -/
abbrev Principal := Nat

/-- One market record, mirroring the value type of the contract's
`markets` map. -/
structure Market where
  category : String
  question : String
  outcomeA : String
  outcomeB : String
  poolA : Nat
  poolB : Nat
  startTime : Nat
  endTime : Nat
  resolved : Bool
  winningOutcome : Option String
  status : String
deriving DecidableEq

/-- One bet record, mirroring the value type of the contract's `bets` map
(keyed by market id and user). -/
structure Bet where
  outcome : String
  amount : Nat
  claimed : Bool
deriving DecidableEq

/-- Per-user gamification statistics, mirroring the value type of the
contract's `user-stats` map. -/
structure UserStats where
  totalBets : Nat
  totalWins : Nat
  currentStreak : Nat
  highestStreak : Nat
  totalEarnings : Nat
deriving DecidableEq

/-- Deployment-time environment: the contract owner (bound to tx-sender at
deployment) and the contract's own principal (the value of
`(as-contract tx-sender)`), which holds custody of pools and treasury. -/
structure Env where
  contractOwner : Principal
  contractPrincipal : Principal

/-- The full ledger state owned by the contract: the two data variables
`market-id-nonce` and `treasury-balance`, the three maps, and the STX
account balances of the host chain (needed to model `stx-transfer?`). -/
structure LedgerState where
  marketIdNonce : Nat
  treasuryBalance : Nat
  markets : Nat → Option Market
  bets : Nat → Principal → Option Bet
  userStats : Principal → Option UserStats
  stxBalances : Principal → Nat

/-- ERR-NOT-AUTHORIZED (err u100). -/
def errNotAuthorized : Nat := 100
/-- ERR-MARKET-NOT-FOUND (err u101). -/
def errMarketNotFound : Nat := 101
/-- ERR-MARKET-CLOSED (err u102). -/
def errMarketClosed : Nat := 102
/-- ERR-MARKET-ALREADY-RESOLVED (err u103). -/
def errMarketAlreadyResolved : Nat := 103
/-- ERR-INSUFFICIENT-FUNDS (err u104). -/
def errInsufficientFunds : Nat := 104
/-- ERR-INVALID-OUTCOME (err u105). -/
def errInvalidOutcome : Nat := 105
/-- ERR-ALREADY-CLAIMED (err u106). -/
def errAlreadyClaimed : Nat := 106

/-- Models the host primitive `stx-transfer?`: moves `amount` from `sender`
to `recipient`, failing with (err u3) when the amount is non-positive
(zero, for a uint) and with (err u1) when the sender's balance is
insufficient; the two conditions are mutually exclusive, so their relative
order is unobservable.  The remaining host failure modes (err u2, sender
equal to recipient, and err u4, sender not the current tx-sender) are not
modelled: at every call site of this contract the sender is the executing
principal, and contract and user principals are distinct on the host chain
because a contract principal cannot sign a transaction. -/
def stxTransferQ (amount : Nat) (sender recipient : Principal)
    (bal : Principal → Nat) : Except Nat (Principal → Nat) :=
  if amount = 0 then .error 3
  else if amount ≤ bal sender then
    .ok fun p =>
      if p = sender then bal p - amount
      else if p = recipient then bal p + amount
      else bal p
  else .error 1

/-- Simplified model of `stx-transfer?` used for the claim-winnings payout
only: just the insufficient-balance failure (err u1) is modelled.  The
zero-amount mode (err u3) is dropped here deliberately: a winning claim's
payout is at least the claimer's own positive stake in every ledger state
reachable from deployment (the divisor-positivity invariant proved below),
so this model and the full one agree on every reachable execution and can
differ only on artificial states holding a zero-amount or unbacked bet. -/
def stxTransferPayoutQ (amount : Nat) (sender recipient : Principal)
    (bal : Principal → Nat) : Except Nat (Principal → Nat) :=
  if amount ≤ bal sender then
    .ok fun p =>
      if p = sender then bal p - amount
      else if p = recipient then bal p + amount
      else bal p
  else .error 1

/-- Read-only `get-user-stats`: returns the stored record, or the all-zero
default when the user has no entry. -/
def getUserStats (s : LedgerState) (user : Principal) : UserStats :=
  (s.userStats user).getD
    { totalBets := 0, totalWins := 0, currentStreak := 0
      highestStreak := 0, totalEarnings := 0 }

/-- Private helper `calculate-multiplier`: bonus-steps is streak divided by
3 (integer division), capped at 10 steps; the result is capped-steps times
10, a percentage in {0, 10, ..., 100}. -/
def calculateMultiplier (streak : Nat) : Nat :=
  let bonusSteps := streak / 3
  let cappedSteps := if bonusSteps > 10 then 10 else bonusSteps
  cappedSteps * 10

/-- Public `create-market`: owner-only; allocates id nonce+1, stores the
market with empty pools, status OPEN, start time = current block height;
advances the nonce and returns the new id. -/
def createMarket (env : Env) (caller : Principal) (blockHeight : Nat)
    (category question outcomeA outcomeB : String) (endTime : Nat)
    (s : LedgerState) : Except Nat (Nat × LedgerState) :=
  let marketId := s.marketIdNonce + 1
  if caller = env.contractOwner then
    .ok (marketId,
      { s with
        marketIdNonce := marketId
        markets := fun i =>
          if i = marketId then
            some { category := category, question := question
                   outcomeA := outcomeA, outcomeB := outcomeB
                   poolA := 0, poolB := 0
                   startTime := blockHeight, endTime := endTime
                   resolved := false, winningOutcome := none
                   status := "OPEN" }
          else s.markets i })
  else .error errNotAuthorized

/-- Public `resolve-market`: unwraps the market (ERR-MARKET-NOT-FOUND
first, before any other check), then requires the owner, an unresolved
market, and a winning outcome equal to one of the two labels; on success
sets resolved, the winning outcome, and status RESOLVED. -/
def resolveMarket (env : Env) (caller : Principal) (marketId : Nat)
    (winningOutcome : String) (s : LedgerState) :
    Except Nat (Bool × LedgerState) :=
  match s.markets marketId with
  | none => .error errMarketNotFound
  | some market =>
    if caller = env.contractOwner then
      if market.resolved then .error errMarketAlreadyResolved
      else if winningOutcome = market.outcomeA ∨ winningOutcome = market.outcomeB then
        .ok (true,
          { s with
            markets := fun i =>
              if i = marketId then
                some { market with
                       resolved := true
                       winningOutcome := some winningOutcome
                       status := "RESOLVED" }
              else s.markets i })
      else .error errInvalidOutcome
    else .error errNotAuthorized

/-- Public `place-bet`: unwraps the market (ERR-MARKET-NOT-FOUND), checks
status OPEN and block height strictly before end-time (ERR-MARKET-CLOSED),
outcome in the label pair (ERR-INVALID-OUTCOME), positive amount
(ERR-INSUFFICIENT-FUNDS); then transfers the stake from the caller to the
contract (a failed transfer aborts with the transfer's own error via try!);
on success adds the amount to the pool matching the outcome, overwrites the
caller's bet record, and increments the caller's total-bets. -/
def placeBet (env : Env) (caller : Principal) (blockHeight : Nat)
    (marketId : Nat) (outcome : String) (amount : Nat)
    (s : LedgerState) : Except Nat (Bool × LedgerState) :=
  match s.markets marketId with
  | none => .error errMarketNotFound
  | some market =>
    let currentStats := getUserStats s caller
    if market.status = "OPEN" then
      if blockHeight < market.endTime then
        if outcome = market.outcomeA ∨ outcome = market.outcomeB then
          if 0 < amount then
            match stxTransferQ amount caller env.contractPrincipal s.stxBalances with
            | .error e => .error e
            | .ok newBal =>
              let isA := outcome = market.outcomeA
              let newPoolA := if isA then market.poolA + amount else market.poolA
              let newPoolB := if isA then market.poolB else market.poolB + amount
              .ok (true,
                { s with
                  stxBalances := newBal
                  markets := fun i =>
                    if i = marketId then
                      some { market with poolA := newPoolA, poolB := newPoolB }
                    else s.markets i
                  bets := fun i u =>
                    if i = marketId ∧ u = caller then
                      some { outcome := outcome, amount := amount, claimed := false }
                    else s.bets i u
                  userStats := fun u =>
                    if u = caller then
                      some { currentStats with totalBets := currentStats.totalBets + 1 }
                    else s.userStats u })
          else .error errInsufficientFunds
        else .error errInvalidOutcome
      else .error errMarketClosed
    else .error errMarketClosed

/-- Public `claim-winnings`: unwraps the market (ERR-MARKET-NOT-FOUND), the
caller's bet (ERR-NOT-AUTHORIZED), and the winning outcome
(ERR-MARKET-NOT-FOUND again when unresolved); checks resolved
(ERR-MARKET-CLOSED) and not yet claimed (ERR-ALREADY-CLAIMED).  On a win
the share is the bet amount times the total pool divided (flooring) by the
winning-side pool; the streak grows by one; the bonus is share times the
multiplier over 100, paid only when the treasury covers it; the payout is
transferred from the contract to the caller (the recipient written in the
source is the bet's user, which is the caller, the user component of the
key the bet was fetched under); the treasury is decremented when a bonus
was paid and the statistics are updated.  On a loss the streak resets to
zero and nothing else in the statistics changes.  In both branches the
bet's claimed flag is set. -/
def claimWinnings (env : Env) (caller : Principal) (marketId : Nat)
    (s : LedgerState) : Except Nat (Bool × LedgerState) :=
  match s.markets marketId with
  | none => .error errMarketNotFound
  | some market =>
    match s.bets marketId caller with
    | none => .error errNotAuthorized
    | some bet =>
      match market.winningOutcome with
      | none => .error errMarketNotFound
      | some winningOutcome =>
        let userHistory := getUserStats s caller
        if market.resolved then
          if bet.claimed then .error errAlreadyClaimed
          else if bet.outcome = winningOutcome then
            let totalPool := market.poolA + market.poolB
            let winningPool :=
              if winningOutcome = market.outcomeA then market.poolA else market.poolB
            let share := bet.amount * totalPool / winningPool
            let newStreak := userHistory.currentStreak + 1
            let multiplier := calculateMultiplier newStreak
            let bonus := share * multiplier / 100
            let actualBonus := if s.treasuryBalance ≥ bonus then bonus else 0
            let totalPayout := share + actualBonus
            match stxTransferPayoutQ totalPayout env.contractPrincipal caller s.stxBalances with
            | .error e => .error e
            | .ok newBal =>
              .ok (true,
                { s with
                  stxBalances := newBal
                  treasuryBalance :=
                    if actualBonus > 0 then s.treasuryBalance - actualBonus
                    else s.treasuryBalance
                  userStats := fun u =>
                    if u = caller then
                      some { userHistory with
                             totalWins := userHistory.totalWins + 1
                             currentStreak := newStreak
                             highestStreak :=
                               if newStreak > userHistory.highestStreak then newStreak
                               else userHistory.highestStreak
                             totalEarnings := userHistory.totalEarnings + totalPayout }
                    else s.userStats u
                  bets := fun i u =>
                    if i = marketId ∧ u = caller then
                      some { bet with claimed := true }
                    else s.bets i u })
          else
            .ok (true,
              { s with
                userStats := fun u =>
                  if u = caller then
                    some { userHistory with currentStreak := 0 }
                  else s.userStats u
                bets := fun i u =>
                  if i = marketId ∧ u = caller then
                    some { bet with claimed := true }
                  else s.bets i u })
        else .error errMarketClosed

/-- Public `fund-treasury`: transfers the amount from the caller to the
contract (any caller; a failed transfer aborts with the transfer's own
error) and adds it to the treasury balance. -/
def fundTreasury (env : Env) (caller : Principal) (amount : Nat)
    (s : LedgerState) : Except Nat (Bool × LedgerState) :=
  match stxTransferQ amount caller env.contractPrincipal s.stxBalances with
  | .error e => .error e
  | .ok newBal =>
    .ok (true,
      { s with
        stxBalances := newBal
        treasuryBalance := s.treasuryBalance + amount })

/-- The state after running a call under the virtual machine's
all-or-nothing semantics: the updated state on ok, the unchanged input
state when the call returns an error. -/
def stepOk {α : Type} (r : Except Nat (α × LedgerState))
    (s : LedgerState) : LedgerState :=
  match r with
  | .ok (_, s') => s'
  | .error _ => s

/-- The ledger state at contract deployment: nonce and treasury zero, all
maps empty, arbitrary host account balances. -/
def initialState (bal : Principal → Nat) : LedgerState :=
  { marketIdNonce := 0, treasuryBalance := 0
    markets := fun _ => none, bets := fun _ _ => none
    userStats := fun _ => none, stxBalances := bal }

/-- One successful top-level call of any of the five public operations,
with arbitrary caller, block height and arguments. -/
inductive Step (env : Env) : LedgerState → LedgerState → Prop where
  | createM : ∀ {s s'} (caller bh : Nat) c q oa ob (et : Nat) v,
      createMarket env caller bh c q oa ob et s = .ok (v, s') → Step env s s'
  | resolveM : ∀ {s s'} (caller mid : Nat) wo v,
      resolveMarket env caller mid wo s = .ok (v, s') → Step env s s'
  | betM : ∀ {s s'} (caller bh mid : Nat) o (a : Nat) v,
      placeBet env caller bh mid o a s = .ok (v, s') → Step env s s'
  | claimM : ∀ {s s'} (caller mid : Nat) v,
      claimWinnings env caller mid s = .ok (v, s') → Step env s s'
  | fundM : ∀ {s s'} (caller a : Nat) v,
      fundTreasury env caller a s = .ok (v, s') → Step env s s'

/-- States reachable from a deployment state by successful calls (a failed
call leaves the state untouched under the all-or-nothing semantics, so only
successful calls matter for reachability). -/
inductive Reachable (env : Env) : LedgerState → Prop where
  | genesis : ∀ bal, Reachable env (initialState bal)
  | step : ∀ {s s'}, Reachable env s → Step env s s' → Reachable env s'

/-- The pool a bet record contributed to, selected exactly as the win
branch of claim-winnings selects the winning pool: the outcome-a pool when
the outcome equals the market's first label, else the outcome-b pool. -/
def matchingPool (market : Market) (outcome : String) : Nat :=
  if outcome = market.outcomeA then market.poolA else market.poolB

/-- Ledger invariant: every stored market id is bounded by the nonce, and
every stored bet has a positive amount that is also a lower bound on the
pool of its market matching its outcome. -/
def Inv (s : LedgerState) : Prop :=
  (∀ mid m, s.markets mid = some m → mid ≤ s.marketIdNonce) ∧
  (∀ mid u b, s.bets mid u = some b →
    ∃ m, s.markets mid = some m ∧ 0 < b.amount ∧ b.amount ≤ matchingPool m b.outcome)

/-- A bet request: caller identity, block height of submission, chosen
outcome and amount. -/
structure BetReq where
  caller : Principal
  blockHeight : Nat
  outcome : String
  amount : Nat

/-- Runs a sequence of place-bet calls on one market, a failed call leaving
the state unchanged, and returns the final state together with the sum of
the amounts of the successful calls. -/
def runBets (env : Env) (marketId : Nat) :
    List BetReq → LedgerState → LedgerState × Nat
  | [], s => (s, 0)
  | r :: rs, s =>
    match placeBet env r.caller r.blockHeight marketId r.outcome r.amount s with
    | .ok (_, s') =>
      let rest := runBets env marketId rs s'
      (rest.1, r.amount + rest.2)
    | .error _ => runBets env marketId rs s

/-! ### A concrete deployment and scenario

The spec's two-bettor scenario: the owner creates a market with labels YES
and NO and deadline 10, user 1 bets 1000 on YES, user 2 bets 1000 on NO,
the owner resolves for YES, and user 1 claims. -/

/-- A concrete deployment: owner is principal 0, the contract account is
principal 9. -/
def demoEnv : Env := { contractOwner := 0, contractPrincipal := 9 }

/-- Concrete initial balances: the contract account starts empty, everyone
else holds 1000000. -/
def demoBal : Principal → Nat := fun p => if p = 9 then 0 else 1000000

/-- Deployment state of the scenario. -/
def demoS0 : LedgerState := initialState demoBal

/-- After the owner creates market 1 (labels YES and NO, end time 10). -/
def demoS1 : LedgerState :=
  stepOk (createMarket demoEnv 0 0 "CRYPTO" "Q" "YES" "NO" 10 demoS0) demoS0

/-- After user 1 bets 1000 on YES. -/
def demoS2 : LedgerState := stepOk (placeBet demoEnv 1 0 1 "YES" 1000 demoS1) demoS1

/-- After user 2 bets 1000 on NO. -/
def demoS3 : LedgerState := stepOk (placeBet demoEnv 2 0 1 "NO" 1000 demoS2) demoS2

/-- After the owner resolves market 1 for YES. -/
def demoS4 : LedgerState := stepOk (resolveMarket demoEnv 0 1 "YES" demoS3) demoS3

/-- After user 1 claims the winnings. -/
def demoS5 : LedgerState := stepOk (claimWinnings demoEnv 1 1 demoS4) demoS4

/-- The market record stored for id 1 in the resolved scenario state. -/
def demoMarket : Market :=
  { category := "CRYPTO", question := "Q", outcomeA := "YES", outcomeB := "NO"
    poolA := 1000, poolB := 1000, startTime := 0, endTime := 10
    resolved := true, winningOutcome := some "YES", status := "RESOLVED" }

/-- User 1's bet record in the resolved scenario state. -/
def demoBet1 : Bet := { outcome := "YES", amount := 1000, claimed := false }

/-- User 2's bet record in the resolved scenario state. -/
def demoBet2 : Bet := { outcome := "NO", amount := 1000, claimed := false }

/-- The market record stored for id 1 right after creation, before any
bet or resolution. -/
def demoOpenMarket : Market :=
  { category := "CRYPTO", question := "Q", outcomeA := "YES", outcomeB := "NO"
    poolA := 0, poolB := 0, startTime := 0, endTime := 10
    resolved := false, winningOutcome := none, status := "OPEN" }

/-- A state realizing the spec's insufficient-treasury scenario: market 1
is resolved for YES with two 1000 pools, user 1 holds an unclaimed winning
bet of 1000 and a current streak of 3 (so the next win carries a 10 percent
bonus of 200), the treasury holds only 50, and the contract account holds
exactly the 2000 pool. -/
def lowTreasuryState : LedgerState :=
  { marketIdNonce := 1, treasuryBalance := 50
    markets := fun i => if i = 1 then some demoMarket else none
    bets := fun i u => if i = 1 ∧ u = 1 then some demoBet1 else none
    userStats := fun u =>
      if u = 1 then
        some { totalBets := 3, totalWins := 3, currentStreak := 3
               highestStreak := 3, totalEarnings := 3000 }
      else none
    stxBalances := fun p => if p = 9 then 2000 else 100 }

/-- The error codes a failing operation can actually surface: the seven
documented contract codes together with the host transfer codes that try!
propagates when a value transfer fails — 1 for an insufficient sender
balance and 3 for a zero amount (reachable through fund-treasury, which
has no positivity guard). -/
def errorCodes : List Nat :=
  [1, 3, errNotAuthorized, errMarketNotFound, errMarketClosed,
   errMarketAlreadyResolved, errInsufficientFunds, errInvalidOutcome,
   errAlreadyClaimed]

/-! ## Inversion lemmas for successful calls -/

/-- A successful transfer requires a sufficient sender balance and moves
the amount from sender to recipient. -/
theorem stxTransferQ_ok_inv {a : Nat} {snd rcp : Principal}
    {bal nb : Principal → Nat} (h : stxTransferQ a snd rcp bal = .ok nb) :
    a ≤ bal snd ∧
    nb = fun p =>
      if p = snd then bal p - a else if p = rcp then bal p + a else bal p := by
  unfold stxTransferQ at h
  split at h
  · exact Except.noConfusion h
  · split at h
    · next hle => injection h with h; exact ⟨hle, h.symm⟩
    · exact Except.noConfusion h

/-- A failed transfer carries host code 3 (and the amount was zero) or
host code 1 (and the sender balance was insufficient). -/
theorem stxTransferQ_error_inv {a : Nat} {snd rcp : Principal}
    {bal : Principal → Nat} {e : Nat}
    (h : stxTransferQ a snd rcp bal = .error e) :
    (e = 3 ∧ a = 0) ∨ (e = 1 ∧ bal snd < a) := by
  unfold stxTransferQ at h
  split at h
  · next hz => injection h with h; exact Or.inl ⟨h.symm, hz⟩
  · split at h
    · exact Except.noConfusion h
    · next hlt => injection h with h; exact Or.inr ⟨h.symm, Nat.lt_of_not_le hlt⟩

/-- A failed payout transfer carries the host code 1 and means the
contract balance was insufficient. -/
theorem stxTransferPayoutQ_error_inv {a : Nat} {snd rcp : Principal}
    {bal : Principal → Nat} {e : Nat}
    (h : stxTransferPayoutQ a snd rcp bal = .error e) :
    e = 1 ∧ bal snd < a := by
  unfold stxTransferPayoutQ at h
  split at h
  · exact Except.noConfusion h
  · next hlt => injection h with h; exact ⟨h.symm, Nat.lt_of_not_le hlt⟩

/-- Inversion of a successful create-market call. -/
theorem createMarket_ok_inv {env : Env} {caller bh : Nat}
    {c q oa ob : String} {et : Nat} {s : LedgerState} {v : Nat}
    {s' : LedgerState}
    (h : createMarket env caller bh c q oa ob et s = .ok (v, s')) :
    caller = env.contractOwner ∧ v = s.marketIdNonce + 1 ∧
    s' = { s with
      marketIdNonce := s.marketIdNonce + 1
      markets := fun i =>
        if i = s.marketIdNonce + 1 then
          some { category := c, question := q, outcomeA := oa, outcomeB := ob
                 poolA := 0, poolB := 0, startTime := bh, endTime := et
                 resolved := false, winningOutcome := none, status := "OPEN" }
        else s.markets i } := by
  unfold createMarket at h
  split at h
  · next hown =>
    injection h with h
    obtain ⟨h1, h2⟩ := Prod.mk.injEq .. ▸ h
    exact ⟨hown, h1.symm, h2.symm⟩
  · exact Except.noConfusion h

/-- Inversion of a successful resolve-market call. -/
theorem resolveMarket_ok_inv {env : Env} {caller mid : Nat} {wo : String}
    {s : LedgerState} {v : Bool} {s' : LedgerState}
    (h : resolveMarket env caller mid wo s = .ok (v, s')) :
    ∃ market, s.markets mid = some market ∧
      caller = env.contractOwner ∧ market.resolved = false ∧
      (wo = market.outcomeA ∨ wo = market.outcomeB) ∧ v = true ∧
      s' = { s with
        markets := fun i =>
          if i = mid then
            some { market with
                   resolved := true, winningOutcome := some wo
                   status := "RESOLVED" }
          else s.markets i } := by
  unfold resolveMarket at h
  split at h
  · exact Except.noConfusion h
  next market hm =>
    refine ⟨market, hm, ?_⟩
    split at h
    · next hown =>
      split at h
      · exact Except.noConfusion h
      · next hres =>
        split at h
        · next hvalid =>
          injection h with h
          obtain ⟨h1, h2⟩ := Prod.mk.injEq .. ▸ h
          exact ⟨hown, Bool.not_eq_true _ ▸ hres, hvalid, h1.symm, h2.symm⟩
        · exact Except.noConfusion h
    · exact Except.noConfusion h

/-- Inversion of a successful place-bet call: all validations passed, the
stake moved from the caller to the contract, and the resulting state is the
input state with the matching pool grown, the bet recorded, and the
caller's total-bets incremented. -/
theorem placeBet_ok_inv {env : Env} {caller bh mid : Nat} {o : String}
    {a : Nat} {s : LedgerState} {v : Bool} {s' : LedgerState}
    (h : placeBet env caller bh mid o a s = .ok (v, s')) :
    ∃ market, s.markets mid = some market ∧
      market.status = "OPEN" ∧ bh < market.endTime ∧
      (o = market.outcomeA ∨ o = market.outcomeB) ∧ 0 < a ∧
      a ≤ s.stxBalances caller ∧ v = true ∧
      s' = { s with
        stxBalances := fun p =>
          if p = caller then s.stxBalances p - a
          else if p = env.contractPrincipal then s.stxBalances p + a
          else s.stxBalances p
        markets := fun i =>
          if i = mid then
            some { market with
                   poolA := if o = market.outcomeA then market.poolA + a
                            else market.poolA
                   poolB := if o = market.outcomeA then market.poolB
                            else market.poolB + a }
          else s.markets i
        bets := fun i u =>
          if i = mid ∧ u = caller then
            some { outcome := o, amount := a, claimed := false }
          else s.bets i u
        userStats := fun u =>
          if u = caller then
            some { getUserStats s caller with
                   totalBets := (getUserStats s caller).totalBets + 1 }
          else s.userStats u } := by
  unfold placeBet at h
  split at h
  · exact Except.noConfusion h
  next market hm =>
    refine ⟨market, hm, ?_⟩
    split at h
    case isFalse => exact Except.noConfusion h
    next hopen =>
    split at h
    case isFalse => exact Except.noConfusion h
    next htime =>
    split at h
    case isFalse => exact Except.noConfusion h
    next hout =>
    split at h
    case isFalse => exact Except.noConfusion h
    next hpos =>
    split at h
    · exact Except.noConfusion h
    · next nb heq =>
      obtain ⟨hbal, hnb⟩ := stxTransferQ_ok_inv heq
      injection h with h
      obtain ⟨h1, h2⟩ := Prod.mk.injEq .. ▸ h
      subst hnb
      exact ⟨hopen, htime, hout, hpos, hbal, h1.symm, h2.symm⟩

/-- Inversion of a successful claim-winnings call, recording only what the
ledger invariant and the re-claim analysis need: the markets map and the
nonce are untouched, the claimed bet existed unclaimed on a resolved market
with a recorded winning outcome, and the bets map afterwards holds that bet
with its claimed flag set (and is otherwise untouched). -/
theorem claimWinnings_ok_inv {env : Env} {caller mid : Nat}
    {s : LedgerState} {v : Bool} {s' : LedgerState}
    (h : claimWinnings env caller mid s = .ok (v, s')) :
    s'.markets = s.markets ∧ s'.marketIdNonce = s.marketIdNonce ∧
    ∃ market bet wo,
      s.markets mid = some market ∧ s.bets mid caller = some bet ∧
      market.winningOutcome = some wo ∧ market.resolved = true ∧
      bet.claimed = false ∧ v = true ∧
      s'.bets = fun i u =>
        if i = mid ∧ u = caller then some { bet with claimed := true }
        else s.bets i u := by
  unfold claimWinnings at h
  split at h
  · exact Except.noConfusion h
  next market hm =>
    split at h
    · exact Except.noConfusion h
    next bet hb =>
      split at h
      · exact Except.noConfusion h
      next wo hw =>
        split at h
        case isFalse => exact Except.noConfusion h
        next hres =>
        split at h
        case isTrue => exact Except.noConfusion h
        next hcl =>
        split at h
        · next hwin =>
          dsimp only [] at h
          repeat' (split at h)
          all_goals
            first
              | exact Except.noConfusion h
              | (injection h with h
                 obtain ⟨h1, h2⟩ := Prod.mk.injEq .. ▸ h
                 subst h2
                 exact ⟨rfl, rfl, market, bet, wo, hm, hb, hw, hres,
                   Bool.not_eq_true _ ▸ hcl, h1.symm, rfl⟩)
        · next hwin =>
          injection h with h
          obtain ⟨h1, h2⟩ := Prod.mk.injEq .. ▸ h
          subst h2
          exact ⟨rfl, rfl, market, bet, wo, hm, hb, hw, hres,
            Bool.not_eq_true _ ▸ hcl, h1.symm, rfl⟩

/-- Inversion of a successful fund-treasury call. -/
theorem fundTreasury_ok_inv {env : Env} {caller a : Nat}
    {s : LedgerState} {v : Bool} {s' : LedgerState}
    (h : fundTreasury env caller a s = .ok (v, s')) :
    a ≤ s.stxBalances caller ∧ v = true ∧
    s' = { s with
      stxBalances := fun p =>
        if p = caller then s.stxBalances p - a
        else if p = env.contractPrincipal then s.stxBalances p + a
        else s.stxBalances p
      treasuryBalance := s.treasuryBalance + a } := by
  unfold fundTreasury at h
  split at h
  · exact Except.noConfusion h
  · next nb heq =>
    obtain ⟨hbal, hnb⟩ := stxTransferQ_ok_inv heq
    injection h with h
    obtain ⟨h1, h2⟩ := Prod.mk.injEq .. ▸ h
    subst hnb
    exact ⟨hbal, h1.symm, h2.symm⟩


/-! ## Forward characterizations of claim-winnings -/

/-- Win branch with a sufficient contract balance: the exact result state
of a successful winning claim. -/
theorem claimWinnings_win_ok {env : Env} {caller mid : Nat} {s : LedgerState}
    {market : Market} {bet : Bet} {wo : String}
    (hm : s.markets mid = some market) (hb : s.bets mid caller = some bet)
    (hw : market.winningOutcome = some wo) (hres : market.resolved = true)
    (hcl : bet.claimed = false) (hwin : bet.outcome = wo)
    (hpay :
      (let share := bet.amount * (market.poolA + market.poolB) /
          (if wo = market.outcomeA then market.poolA else market.poolB)
       let bonus := share * calculateMultiplier ((getUserStats s caller).currentStreak + 1) / 100
       let actualBonus := if s.treasuryBalance ≥ bonus then bonus else 0
       share + actualBonus) ≤ s.stxBalances env.contractPrincipal) :
    claimWinnings env caller mid s =
      (let userHistory := getUserStats s caller
       let share := bet.amount * (market.poolA + market.poolB) /
          (if wo = market.outcomeA then market.poolA else market.poolB)
       let newStreak := userHistory.currentStreak + 1
       let bonus := share * calculateMultiplier newStreak / 100
       let actualBonus := if s.treasuryBalance ≥ bonus then bonus else 0
       let totalPayout := share + actualBonus
       .ok (true,
        { s with
          stxBalances := fun p =>
            if p = env.contractPrincipal then s.stxBalances p - totalPayout
            else if p = caller then s.stxBalances p + totalPayout
            else s.stxBalances p
          treasuryBalance :=
            if actualBonus > 0 then s.treasuryBalance - actualBonus
            else s.treasuryBalance
          userStats := fun u =>
            if u = caller then
              some { userHistory with
                     totalWins := userHistory.totalWins + 1
                     currentStreak := newStreak
                     highestStreak :=
                       if newStreak > userHistory.highestStreak then newStreak
                       else userHistory.highestStreak
                     totalEarnings := userHistory.totalEarnings + totalPayout }
            else s.userStats u
          bets := fun i u =>
            if i = mid ∧ u = caller then some { bet with claimed := true }
            else s.bets i u })) := by
  have hcl2 : ¬ bet.claimed = true := by simp [hcl]
  unfold claimWinnings
  simp only [hm, hb, hw]
  rw [if_pos hres, if_neg hcl2, if_pos hwin]
  unfold stxTransferPayoutQ
  rw [if_pos hpay]

/-- Win branch with an insufficient contract balance: the claim aborts with
the transfer's host error code 1. -/
theorem claimWinnings_win_insufficient {env : Env} {caller mid : Nat}
    {s : LedgerState} {market : Market} {bet : Bet} {wo : String}
    (hm : s.markets mid = some market) (hb : s.bets mid caller = some bet)
    (hw : market.winningOutcome = some wo) (hres : market.resolved = true)
    (hcl : bet.claimed = false) (hwin : bet.outcome = wo)
    (hpay : s.stxBalances env.contractPrincipal <
      (let share := bet.amount * (market.poolA + market.poolB) /
          (if wo = market.outcomeA then market.poolA else market.poolB)
       let bonus := share * calculateMultiplier ((getUserStats s caller).currentStreak + 1) / 100
       let actualBonus := if s.treasuryBalance ≥ bonus then bonus else 0
       share + actualBonus)) :
    claimWinnings env caller mid s = .error 1 := by
  have hcl2 : ¬ bet.claimed = true := by simp [hcl]
  unfold claimWinnings
  simp only [hm, hb, hw]
  rw [if_pos hres, if_neg hcl2, if_pos hwin]
  unfold stxTransferPayoutQ
  rw [if_neg (Nat.not_le.mpr hpay)]

/-- Loss branch: the exact result state of claiming a losing bet. -/
theorem claimWinnings_loss_ok {env : Env} {caller mid : Nat}
    {s : LedgerState} {market : Market} {bet : Bet} {wo : String}
    (hm : s.markets mid = some market) (hb : s.bets mid caller = some bet)
    (hw : market.winningOutcome = some wo) (hres : market.resolved = true)
    (hcl : bet.claimed = false) (hlose : ¬ bet.outcome = wo) :
    claimWinnings env caller mid s =
      .ok (true,
        { s with
          userStats := fun u =>
            if u = caller then
              some { getUserStats s caller with currentStreak := 0 }
            else s.userStats u
          bets := fun i u =>
            if i = mid ∧ u = caller then some { bet with claimed := true }
            else s.bets i u }) := by
  have hcl2 : ¬ bet.claimed = true := by simp [hcl]
  unfold claimWinnings
  simp only [hm, hb, hw]
  rw [if_pos hres, if_neg hcl2, if_neg hlose]

/-! ## Claim theorems -/

/-- C4: the bonus multiplier for a new streak s is 10 times min(s / 3, 10)
percent; concretely streak 1 gives 0, streak 3 gives 10, streak 6 gives 20,
streak 30 gives 100, and streak 1000 gives 100 (capped). -/
theorem multiplier_schedule :
    (∀ s : Nat, calculateMultiplier s = 10 * min (s / 3) 10) ∧
    calculateMultiplier 1 = 0 ∧ calculateMultiplier 3 = 10 ∧
    calculateMultiplier 6 = 20 ∧ calculateMultiplier 30 = 100 ∧
    calculateMultiplier 1000 = 100 := by
  refine ⟨fun s => ?_, by decide, by decide, by decide, by decide, by decide⟩
  unfold calculateMultiplier
  dsimp only []
  split <;> omega

/-- C7: claiming a losing bet on a resolved market succeeds, moves no
funds, resets the current streak to zero, leaves total wins, highest
streak and total earnings unchanged, and marks the bet claimed. -/
theorem claim_loss_records_loss {env : Env} {caller mid : Nat}
    {s : LedgerState} {market : Market} {bet : Bet} {wo : String}
    (hm : s.markets mid = some market) (hb : s.bets mid caller = some bet)
    (hw : market.winningOutcome = some wo) (hres : market.resolved = true)
    (hcl : bet.claimed = false) (hlose : ¬ bet.outcome = wo) :
    ∃ s', claimWinnings env caller mid s = .ok (true, s') ∧
      s'.stxBalances = s.stxBalances ∧
      (getUserStats s' caller).currentStreak = 0 ∧
      (getUserStats s' caller).totalWins = (getUserStats s caller).totalWins ∧
      (getUserStats s' caller).highestStreak = (getUserStats s caller).highestStreak ∧
      (getUserStats s' caller).totalEarnings = (getUserStats s caller).totalEarnings ∧
      s'.bets mid caller = some { bet with claimed := true } := by
  refine ⟨_, claimWinnings_loss_ok hm hb hw hres hcl hlose, rfl, ?_, ?_, ?_, ?_, ?_⟩ <;>
    simp [getUserStats]

/-- C7 witness: user 2 claims the losing NO bet in the demo scenario. -/
theorem claim_loss_records_loss_witness :
    ∃ s', claimWinnings demoEnv 2 1 demoS4 = .ok (true, s') ∧
      s'.stxBalances = demoS4.stxBalances ∧
      (getUserStats s' 2).currentStreak = 0 ∧
      (getUserStats s' 2).totalWins = (getUserStats demoS4 2).totalWins ∧
      (getUserStats s' 2).highestStreak = (getUserStats demoS4 2).highestStreak ∧
      (getUserStats s' 2).totalEarnings = (getUserStats demoS4 2).totalEarnings ∧
      s'.bets 1 2 = some { demoBet2 with claimed := true } :=
  claim_loss_records_loss rfl rfl rfl rfl rfl (by decide)



/-- C1: on a winning claim the total payout, share plus actual bonus, is
transferred from the contract's custody account to the caller; if the
custody balance cannot cover it, the whole claim fails with the transfer's
error and the ledger state is unchanged. -/
theorem claim_payout_transfer_atomic {env : Env} {caller mid : Nat}
    {s : LedgerState} {market : Market} {bet : Bet} {wo : String}
    (hm : s.markets mid = some market) (hb : s.bets mid caller = some bet)
    (hw : market.winningOutcome = some wo) (hres : market.resolved = true)
    (hcl : bet.claimed = false) (hwin : bet.outcome = wo)
    (hne : caller ≠ env.contractPrincipal) :
    (let share := bet.amount * (market.poolA + market.poolB) /
        (if wo = market.outcomeA then market.poolA else market.poolB)
     let bonus := share * calculateMultiplier ((getUserStats s caller).currentStreak + 1) / 100
     let actualBonus := if s.treasuryBalance ≥ bonus then bonus else 0
     let totalPayout := share + actualBonus
     (totalPayout ≤ s.stxBalances env.contractPrincipal →
       ∃ s', claimWinnings env caller mid s = .ok (true, s') ∧
         s'.stxBalances caller = s.stxBalances caller + totalPayout ∧
         s'.stxBalances env.contractPrincipal =
           s.stxBalances env.contractPrincipal - totalPayout) ∧
     (s.stxBalances env.contractPrincipal < totalPayout →
       claimWinnings env caller mid s = .error 1 ∧
       stepOk (claimWinnings env caller mid s) s = s)) := by
  constructor
  · intro hpay
    refine ⟨_, claimWinnings_win_ok hm hb hw hres hcl hwin hpay, ?_, ?_⟩
    · simp [hne]
    · simp
  · intro hpay
    have he := claimWinnings_win_insufficient hm hb hw hres hcl hwin hpay
    exact ⟨he, by rw [he]; rfl⟩

/-- C1 witness: user 1's winning claim in the demo scenario. -/
theorem claim_payout_transfer_atomic_witness :
    (let share := demoBet1.amount * (demoMarket.poolA + demoMarket.poolB) /
        (if "YES" = demoMarket.outcomeA then demoMarket.poolA else demoMarket.poolB)
     let bonus := share * calculateMultiplier ((getUserStats demoS4 1).currentStreak + 1) / 100
     let actualBonus := if demoS4.treasuryBalance ≥ bonus then bonus else 0
     let totalPayout := share + actualBonus
     (totalPayout ≤ demoS4.stxBalances demoEnv.contractPrincipal →
       ∃ s', claimWinnings demoEnv 1 1 demoS4 = .ok (true, s') ∧
         s'.stxBalances 1 = demoS4.stxBalances 1 + totalPayout ∧
         s'.stxBalances demoEnv.contractPrincipal =
           demoS4.stxBalances demoEnv.contractPrincipal - totalPayout) ∧
     (demoS4.stxBalances demoEnv.contractPrincipal < totalPayout →
       claimWinnings demoEnv 1 1 demoS4 = .error 1 ∧
       stepOk (claimWinnings demoEnv 1 1 demoS4) demoS4 = demoS4)) :=
  claim_payout_transfer_atomic rfl rfl rfl rfl rfl rfl (by decide)



/-- C2: the pre-bonus amount credited by a winning claim is the flooring
integer-division share, bet amount times total pool over winning pool; in
particular, in the two-bettor demo scenario resolved for YES, user 1's
claim pays exactly 2000 and leaves total earnings 2000. -/
theorem claim_share_formula {env : Env} {caller mid : Nat}
    {s : LedgerState} {market : Market} {bet : Bet} {wo : String}
    (hm : s.markets mid = some market) (hb : s.bets mid caller = some bet)
    (hw : market.winningOutcome = some wo) (hres : market.resolved = true)
    (hcl : bet.claimed = false) (hwin : bet.outcome = wo)
    (hne : caller ≠ env.contractPrincipal)
    (hpay :
      (let share := bet.amount * (market.poolA + market.poolB) /
          (if wo = market.outcomeA then market.poolA else market.poolB)
       let bonus := share * calculateMultiplier ((getUserStats s caller).currentStreak + 1) / 100
       let actualBonus := if s.treasuryBalance ≥ bonus then bonus else 0
       share + actualBonus) ≤ s.stxBalances env.contractPrincipal) :
    (let share := bet.amount * (market.poolA + market.poolB) /
        (if wo = market.outcomeA then market.poolA else market.poolB)
     let bonus := share * calculateMultiplier ((getUserStats s caller).currentStreak + 1) / 100
     let actualBonus := if s.treasuryBalance ≥ bonus then bonus else 0
     ∃ s', claimWinnings env caller mid s = .ok (true, s') ∧
       (getUserStats s' caller).totalEarnings =
         (getUserStats s caller).totalEarnings + (share + actualBonus) ∧
       s'.stxBalances caller = s.stxBalances caller + (share + actualBonus)) ∧
    (claimWinnings demoEnv 1 1 demoS4 = .ok (true, demoS5) ∧
     demoS5.stxBalances 1 = demoS4.stxBalances 1 + 2000 ∧
     (getUserStats demoS5 1).totalEarnings = 2000) := by
  constructor
  · refine ⟨_, claimWinnings_win_ok hm hb hw hres hcl hwin hpay, ?_, ?_⟩
    · simp [getUserStats]
    · simp [hne]
  · exact ⟨rfl, by decide, by decide⟩

/-- C2 witness: the general component instantiated at the demo scenario. -/
theorem claim_share_formula_witness :
    (let share := demoBet1.amount * (demoMarket.poolA + demoMarket.poolB) /
        (if "YES" = demoMarket.outcomeA then demoMarket.poolA else demoMarket.poolB)
     let bonus := share * calculateMultiplier ((getUserStats demoS4 1).currentStreak + 1) / 100
     let actualBonus := if demoS4.treasuryBalance ≥ bonus then bonus else 0
     ∃ s', claimWinnings demoEnv 1 1 demoS4 = .ok (true, s') ∧
       (getUserStats s' 1).totalEarnings =
         (getUserStats demoS4 1).totalEarnings + (share + actualBonus) ∧
       s'.stxBalances 1 = demoS4.stxBalances 1 + (share + actualBonus)) ∧
    (claimWinnings demoEnv 1 1 demoS4 = .ok (true, demoS5) ∧
     demoS5.stxBalances 1 = demoS4.stxBalances 1 + 2000 ∧
     (getUserStats demoS5 1).totalEarnings = 2000) :=
  claim_share_formula rfl rfl rfl rfl rfl rfl (by decide) (by decide)



/-- C5: when the computed bonus exceeds the treasury, a winning claim still
succeeds with zero actual bonus, pays the share alone, and leaves the
treasury untouched; the treasury is decremented, by exactly the bonus,
only when its balance covers the bonus. -/
theorem bonus_degrades_without_error {env : Env} {caller mid : Nat}
    {s : LedgerState} {market : Market} {bet : Bet} {wo : String}
    (hm : s.markets mid = some market) (hb : s.bets mid caller = some bet)
    (hw : market.winningOutcome = some wo) (hres : market.resolved = true)
    (hcl : bet.claimed = false) (hwin : bet.outcome = wo)
    (hne : caller ≠ env.contractPrincipal) :
    (let share := bet.amount * (market.poolA + market.poolB) /
        (if wo = market.outcomeA then market.poolA else market.poolB)
     let bonus := share * calculateMultiplier ((getUserStats s caller).currentStreak + 1) / 100
     (s.treasuryBalance < bonus →
       share ≤ s.stxBalances env.contractPrincipal →
       ∃ s', claimWinnings env caller mid s = .ok (true, s') ∧
         s'.treasuryBalance = s.treasuryBalance ∧
         s'.stxBalances caller = s.stxBalances caller + share) ∧
     (bonus ≤ s.treasuryBalance →
       share + bonus ≤ s.stxBalances env.contractPrincipal →
       ∃ s', claimWinnings env caller mid s = .ok (true, s') ∧
         s'.treasuryBalance = s.treasuryBalance - bonus ∧
         s'.stxBalances caller = s.stxBalances caller + (share + bonus))) := by
  constructor
  · intro hlow hbal
    have hnb : ¬ (s.treasuryBalance ≥
        bet.amount * (market.poolA + market.poolB) /
          (if wo = market.outcomeA then market.poolA else market.poolB) *
          calculateMultiplier ((getUserStats s caller).currentStreak + 1) / 100) := by
      omega
    have hpay :
        (let share := bet.amount * (market.poolA + market.poolB) /
            (if wo = market.outcomeA then market.poolA else market.poolB)
         let bonus := share * calculateMultiplier ((getUserStats s caller).currentStreak + 1) / 100
         let actualBonus := if s.treasuryBalance ≥ bonus then bonus else 0
         share + actualBonus) ≤ s.stxBalances env.contractPrincipal := by
      dsimp only []
      rw [if_neg hnb]
      omega
    refine ⟨_, claimWinnings_win_ok hm hb hw hres hcl hwin hpay, ?_, ?_⟩
    · dsimp only []
      rw [if_neg hnb]
      simp
    · dsimp only []
      rw [if_neg hnb]
      simp [hne]
  · intro hhigh hbal
    have hyb : s.treasuryBalance ≥
        bet.amount * (market.poolA + market.poolB) /
          (if wo = market.outcomeA then market.poolA else market.poolB) *
          calculateMultiplier ((getUserStats s caller).currentStreak + 1) / 100 := hhigh
    have hpay :
        (let share := bet.amount * (market.poolA + market.poolB) /
            (if wo = market.outcomeA then market.poolA else market.poolB)
         let bonus := share * calculateMultiplier ((getUserStats s caller).currentStreak + 1) / 100
         let actualBonus := if s.treasuryBalance ≥ bonus then bonus else 0
         share + actualBonus) ≤ s.stxBalances env.contractPrincipal := by
      dsimp only []
      rw [if_pos hyb]
      omega
    refine ⟨_, claimWinnings_win_ok hm hb hw hres hcl hwin hpay, ?_, ?_⟩
    · dsimp only []
      rw [if_pos hyb]
      by_cases hp : 0 < bet.amount * (market.poolA + market.poolB) /
          (if wo = market.outcomeA then market.poolA else market.poolB) *
          calculateMultiplier ((getUserStats s caller).currentStreak + 1) / 100
      · rw [if_pos hp]
      · rw [if_neg hp]
        omega
    · dsimp only []
      rw [if_pos hyb]
      simp [hne]

/-- C5 witness: the spec's scenario, bonus 200 against a treasury of 50. -/
theorem bonus_degrades_without_error_witness :
    (let share := demoBet1.amount * (demoMarket.poolA + demoMarket.poolB) /
        (if "YES" = demoMarket.outcomeA then demoMarket.poolA else demoMarket.poolB)
     let bonus := share * calculateMultiplier
        ((getUserStats lowTreasuryState 1).currentStreak + 1) / 100
     (lowTreasuryState.treasuryBalance < bonus →
       share ≤ lowTreasuryState.stxBalances demoEnv.contractPrincipal →
       ∃ s', claimWinnings demoEnv 1 1 lowTreasuryState = .ok (true, s') ∧
         s'.treasuryBalance = lowTreasuryState.treasuryBalance ∧
         s'.stxBalances 1 = lowTreasuryState.stxBalances 1 + share) ∧
     (bonus ≤ lowTreasuryState.treasuryBalance →
       share + bonus ≤ lowTreasuryState.stxBalances demoEnv.contractPrincipal →
       ∃ s', claimWinnings demoEnv 1 1 lowTreasuryState = .ok (true, s') ∧
         s'.treasuryBalance = lowTreasuryState.treasuryBalance - bonus ∧
         s'.stxBalances 1 = lowTreasuryState.stxBalances 1 + (share + bonus))) :=
  bonus_degrades_without_error rfl rfl rfl rfl rfl rfl (by decide)

/-- C6: a second claim-winnings call by the same user on the same market,
after a successful first one, fails with AlreadyClaimed and leaves the
ledger state exactly as the first call left it. -/
theorem claim_twice_fails {env : Env} {caller mid : Nat}
    {s : LedgerState} {v : Bool} {s1 : LedgerState}
    (h : claimWinnings env caller mid s = .ok (v, s1)) :
    claimWinnings env caller mid s1 = .error errAlreadyClaimed ∧
    stepOk (claimWinnings env caller mid s1) s1 = s1 := by
  obtain ⟨hmk, hnonce, market, bet, wo, hm, hb, hw, hres, hcl, hv, hbets⟩ :=
    claimWinnings_ok_inv h
  have hm1 : s1.markets mid = some market := by rw [hmk, hm]
  have hb1 : s1.bets mid caller = some { bet with claimed := true } := by
    rw [hbets]; simp
  have he : claimWinnings env caller mid s1 = .error errAlreadyClaimed := by
    unfold claimWinnings
    simp only [hm1, hb1, hw]
    rw [if_pos hres]
    simp
  exact ⟨he, by rw [he]; rfl⟩

/-- C6 witness: user 1 claims twice in the demo scenario. -/
theorem claim_twice_fails_witness :
    claimWinnings demoEnv 1 1 demoS5 = .error errAlreadyClaimed ∧
    stepOk (claimWinnings demoEnv 1 1 demoS5) demoS5 = demoS5 :=
  claim_twice_fails (s := demoS4) (v := true) rfl

/-- C9 counterexample: a non-owner resolving an absent market id gets
MarketNotFound (101), not NotAuthorized (100) — the market unwrap runs
before the owner check. -/
theorem resolve_nonowner_missing_market_cex :
    (5 : Principal) ≠ demoEnv.contractOwner ∧
    demoS0.markets 1 = none ∧
    resolveMarket demoEnv 5 1 "YES" demoS0 = .error errMarketNotFound ∧
    errMarketNotFound ≠ errNotAuthorized :=
  ⟨by decide, rfl, rfl, by decide⟩

/-- C9 amended: a resolve-market call by a non-owner fails NotAuthorized
whenever the supplied market id exists, regardless of its resolved status
or of the validity of the supplied outcome label; when the id is absent
the call fails MarketNotFound instead, for any caller. -/
theorem resolve_nonowner_fails {env : Env} {caller mid : Nat} {wo : String}
    {s : LedgerState} (hown : caller ≠ env.contractOwner) :
    (∀ market, s.markets mid = some market →
      resolveMarket env caller mid wo s = .error errNotAuthorized) ∧
    (s.markets mid = none →
      resolveMarket env caller mid wo s = .error errMarketNotFound) := by
  constructor
  · intro market hm
    unfold resolveMarket
    rw [hm]
    dsimp only []
    rw [if_neg hown]
  · intro hm
    unfold resolveMarket
    rw [hm]

/-- C9 witness: a non-owner with an invalid label on the freshly created,
existing market still gets NotAuthorized. -/
theorem resolve_nonowner_fails_witness :
    (5 : Principal) ≠ demoEnv.contractOwner ∧
    demoS1.markets 1 = some demoOpenMarket ∧
    resolveMarket demoEnv 5 1 "BOGUS" demoS1 = .error errNotAuthorized :=
  ⟨by decide, rfl, (resolve_nonowner_fails (by decide)).1 demoOpenMarket rfl⟩



/-- Every error create-market can return lies in the extended code set. -/
theorem createMarket_error_mem {env : Env} {caller bh : Nat}
    {c q oa ob : String} {et : Nat} {s : LedgerState} {e : Nat}
    (h : createMarket env caller bh c q oa ob et s = .error e) :
    e ∈ errorCodes := by
  unfold createMarket at h
  split at h
  · exact Except.noConfusion h
  · injection h with h; subst h; decide

/-- Every error resolve-market can return lies in the extended code set. -/
theorem resolveMarket_error_mem {env : Env} {caller mid : Nat} {wo : String}
    {s : LedgerState} {e : Nat}
    (h : resolveMarket env caller mid wo s = .error e) : e ∈ errorCodes := by
  unfold resolveMarket at h
  repeat' (split at h)
  all_goals
    first
      | exact Except.noConfusion h
      | (injection h with h; subst h; decide)

/-- Every error place-bet can return lies in the extended code set (the
transfer propagation contributes only code 1). -/
theorem placeBet_error_mem {env : Env} {caller bh mid : Nat} {o : String}
    {a : Nat} {s : LedgerState} {e : Nat}
    (h : placeBet env caller bh mid o a s = .error e) : e ∈ errorCodes := by
  unfold placeBet at h
  repeat' (first | (split at h) | (dsimp only [] at h))
  all_goals
    first
      | exact Except.noConfusion h
      | (injection h with h; subst h; decide)
      | (rename_i e2 heq
         injection h with h
         subst h
         rcases stxTransferQ_error_inv heq with ⟨h1, -⟩ | ⟨h1, -⟩ <;>
           subst h1 <;> decide)

/-- Every error claim-winnings can return lies in the extended code set. -/
theorem claimWinnings_error_mem {env : Env} {caller mid : Nat}
    {s : LedgerState} {e : Nat}
    (h : claimWinnings env caller mid s = .error e) : e ∈ errorCodes := by
  unfold claimWinnings at h
  repeat' (first | (split at h) | (dsimp only [] at h))
  all_goals
    first
      | exact Except.noConfusion h
      | (injection h with h; subst h; decide)
      | (rename_i e2 heq
         injection h with h
         subst h
         obtain ⟨h1, -⟩ := stxTransferPayoutQ_error_inv heq
         subst h1
         decide)

/-- Every error fund-treasury can return lies in the extended code set. -/
theorem fundTreasury_error_mem {env : Env} {caller a : Nat}
    {s : LedgerState} {e : Nat}
    (h : fundTreasury env caller a s = .error e) : e ∈ errorCodes := by
  unfold fundTreasury at h
  repeat' (split at h)
  all_goals
    first
      | exact Except.noConfusion h
      | (rename_i e2 heq
         injection h with h
         subst h
         rcases stxTransferQ_error_inv heq with ⟨h1, -⟩ | ⟨h1, -⟩ <;>
           subst h1 <;> decide)

/-- C8 counterexample: a place-bet call that passes every validation but
whose stake transfer fails returns the host transfer error 1, and a
fund-treasury call with amount zero (which has no positivity guard)
returns the host transfer error 3; both values are outside the documented
seven-code set. -/
theorem transfer_error_escapes_taxonomy_cex :
    placeBet demoEnv 3 0 1 "YES" 2000000 demoS1 = .error 1 ∧
    fundTreasury demoEnv 1 0 demoS0 = .error 3 ∧
    (1 : Nat) ∉ [errNotAuthorized, errMarketNotFound, errMarketClosed,
      errMarketAlreadyResolved, errInsufficientFunds, errInvalidOutcome,
      errAlreadyClaimed] ∧
    (3 : Nat) ∉ [errNotAuthorized, errMarketNotFound, errMarketClosed,
      errMarketAlreadyResolved, errInsufficientFunds, errInvalidOutcome,
      errAlreadyClaimed] :=
  ⟨rfl, rfl, by decide, by decide⟩

/-- C8 amended: every failing result of any of the five operations carries
a code from the seven documented contract codes extended with the host
transfer codes 1 (insufficient balance) and 3 (zero amount, reachable via
fund-treasury), which try! propagates when the underlying value transfer
fails. -/
theorem error_codes_closed_amended :
    (∀ (env : Env) (caller bh : Nat) (c q oa ob : String) (et : Nat)
       (s : LedgerState) (e : Nat),
      createMarket env caller bh c q oa ob et s = .error e → e ∈ errorCodes) ∧
    (∀ (env : Env) (caller mid : Nat) (wo : String) (s : LedgerState) (e : Nat),
      resolveMarket env caller mid wo s = .error e → e ∈ errorCodes) ∧
    (∀ (env : Env) (caller bh mid : Nat) (o : String) (a : Nat)
       (s : LedgerState) (e : Nat),
      placeBet env caller bh mid o a s = .error e → e ∈ errorCodes) ∧
    (∀ (env : Env) (caller mid : Nat) (s : LedgerState) (e : Nat),
      claimWinnings env caller mid s = .error e → e ∈ errorCodes) ∧
    (∀ (env : Env) (caller a : Nat) (s : LedgerState) (e : Nat),
      fundTreasury env caller a s = .error e → e ∈ errorCodes) :=
  ⟨fun _ _ _ _ _ _ _ _ _ _ h => createMarket_error_mem h,
   fun _ _ _ _ _ _ h => resolveMarket_error_mem h,
   fun _ _ _ _ _ _ _ _ h => placeBet_error_mem h,
   fun _ _ _ _ _ h => claimWinnings_error_mem h,
   fun _ _ _ _ _ h => fundTreasury_error_mem h⟩

/-- C8 witness: the failed-transfer place-bet error 1 and the zero-amount
fund-treasury error 3 are both in the extended set. -/
theorem error_codes_closed_amended_witness :
    (placeBet demoEnv 3 0 1 "YES" 2000000 demoS1 = .error 1 ∧
     (1 : Nat) ∈ errorCodes) ∧
    (fundTreasury demoEnv 1 0 demoS0 = .error 3 ∧
     (3 : Nat) ∈ errorCodes) :=
  ⟨⟨rfl, error_codes_closed_amended.2.2.1 demoEnv 3 0 1 "YES" 2000000 demoS1 1 rfl⟩,
   ⟨rfl, error_codes_closed_amended.2.2.2.2 demoEnv 1 0 demoS0 3 rfl⟩⟩



/-- Running a bet sequence adds exactly the successful amounts to the
market's pool sum. -/
theorem runBets_pool_sum (env : Env) (mid : Nat) :
    ∀ (reqs : List BetReq) (s : LedgerState) (market : Market),
      s.markets mid = some market →
      ∃ market2, ((runBets env mid reqs s).1).markets mid = some market2 ∧
        market2.poolA + market2.poolB =
          market.poolA + market.poolB + (runBets env mid reqs s).2 := by
  intro reqs
  induction reqs with
  | nil =>
    intro s market hm
    exact ⟨market, hm, by simp [runBets]⟩
  | cons r rs ih =>
    intro s market hm
    cases hcall : placeBet env r.caller r.blockHeight mid r.outcome r.amount s with
    | error e =>
      have hrun : runBets env mid (r :: rs) s = runBets env mid rs s := by
        simp only [runBets, hcall]
      rw [hrun]
      exact ih s market hm
    | ok pr =>
      obtain ⟨v, s1⟩ := pr
      obtain ⟨market0, hm0, -, -, -, -, -, -, hs1⟩ := placeBet_ok_inv hcall
      rw [hm] at hm0
      injection hm0 with hm0
      subst hm0
      have hm1 : s1.markets mid = some { market with
          poolA := if r.outcome = market.outcomeA then market.poolA + r.amount
                   else market.poolA
          poolB := if r.outcome = market.outcomeA then market.poolB
                   else market.poolB + r.amount } := by
        rw [hs1]; simp
      obtain ⟨m2, h2, hsum⟩ := ih s1 _ hm1
      have hrun : runBets env mid (r :: rs) s =
          ((runBets env mid rs s1).1, r.amount + (runBets env mid rs s1).2) := by
        simp only [runBets, hcall]
      rw [hrun]
      refine ⟨m2, h2, ?_⟩
      rw [hsum]
      by_cases hA : r.outcome = market.outcomeA <;> simp [hA] <;> omega

/-- C3: starting from a market with empty pools, after any sequence of
place-bet calls the pool sum equals the total of the successfully wagered
amounts (amounts of bets later overwritten by a re-bet included, since
every successful call adds its amount to a pool). -/
theorem pool_sum_invariant (env : Env) (mid : Nat) (reqs : List BetReq)
    (s : LedgerState) (market : Market)
    (hm : s.markets mid = some market)
    (hA : market.poolA = 0) (hB : market.poolB = 0) :
    ∃ market2, ((runBets env mid reqs s).1).markets mid = some market2 ∧
      market2.poolA + market2.poolB = (runBets env mid reqs s).2 := by
  obtain ⟨m2, h2, hsum⟩ := runBets_pool_sum env mid reqs s market hm
  refine ⟨m2, h2, ?_⟩
  rw [hsum, hA, hB]
  omega

/-- C3 witness: the demo scenario's two 1000 bets on the fresh market. -/
theorem pool_sum_invariant_witness :
    ∃ market2,
      ((runBets demoEnv 1
          [{ caller := 1, blockHeight := 0, outcome := "YES", amount := 1000 },
           { caller := 2, blockHeight := 0, outcome := "NO", amount := 1000 }]
          demoS1).1).markets 1 = some market2 ∧
      market2.poolA + market2.poolB =
        (runBets demoEnv 1
          [{ caller := 1, blockHeight := 0, outcome := "YES", amount := 1000 },
           { caller := 2, blockHeight := 0, outcome := "NO", amount := 1000 }]
          demoS1).2 :=
  pool_sum_invariant demoEnv 1 _ demoS1 demoOpenMarket rfl rfl rfl



/-- The deployment state satisfies the ledger invariant. -/
theorem inv_initial (bal : Principal → Nat) : Inv (initialState bal) := by
  constructor
  · intro mid m h; exact Option.noConfusion h
  · intro mid u b h; exact Option.noConfusion h

/-- A freshly updated pool still dominates any older bound on the matching
pool: place-bet only ever grows pools. -/
theorem matchingPool_update_mono (market : Market) (o out : String) (a : Nat) :
    matchingPool market out ≤ matchingPool
      { market with
        poolA := if o = market.outcomeA then market.poolA + a else market.poolA
        poolB := if o = market.outcomeA then market.poolB else market.poolB + a }
      out := by
  unfold matchingPool
  dsimp only []
  by_cases hA : out = market.outcomeA
  · rw [if_pos hA, if_pos hA]
    split <;> omega
  · rw [if_neg hA, if_neg hA]
    split <;> omega

/-- The pool matching the outcome just bet on is at least the amount just
added. -/
theorem matchingPool_update_self (market : Market) (o : String) (a : Nat) :
    a ≤ matchingPool
      { market with
        poolA := if o = market.outcomeA then market.poolA + a else market.poolA
        poolB := if o = market.outcomeA then market.poolB else market.poolB + a }
      o := by
  unfold matchingPool
  dsimp only []
  by_cases hA : o = market.outcomeA
  · simp [hA]
  · simp [hA]

/-- Every successful operation preserves the ledger invariant. -/
theorem inv_step {env : Env} {s s' : LedgerState}
    (hinv : Inv s) (hstep : Step env s s') : Inv s' := by
  obtain ⟨hbound, hbets⟩ := hinv
  cases hstep with
  | createM caller bh c q oa ob et v h =>
    obtain ⟨-, -, hs'⟩ := createMarket_ok_inv h
    subst hs'
    constructor
    · intro mid m hm
      dsimp only [] at hm ⊢
      by_cases he : mid = s.marketIdNonce + 1
      · omega
      · rw [if_neg he] at hm
        exact Nat.le_succ_of_le (hbound mid m hm)
    · intro mid u b hb
      obtain ⟨m, hm, hpos, hle⟩ := hbets mid u b hb
      refine ⟨m, ?_, hpos, hle⟩
      have hlt : mid ≤ s.marketIdNonce := hbound mid m hm
      dsimp only []
      rw [if_neg (by omega)]
      exact hm
  | resolveM caller mid0 wo v h =>
    obtain ⟨market, hm0, -, -, -, -, hs'⟩ := resolveMarket_ok_inv h
    subst hs'
    constructor
    · intro mid m hm
      dsimp only [] at hm ⊢
      by_cases he : mid = mid0
      · subst he; exact hbound mid market hm0
      · rw [if_neg he] at hm; exact hbound mid m hm
    · intro mid u b hb
      obtain ⟨m, hm, hpos, hle⟩ := hbets mid u b hb
      dsimp only []
      by_cases he : mid = mid0
      · subst he
        rw [hm0] at hm
        injection hm with hm
        subst hm
        refine ⟨_, by rw [if_pos rfl], hpos, ?_⟩
        simpa [matchingPool] using hle
      · exact ⟨m, by rw [if_neg he]; exact hm, hpos, hle⟩
  | betM caller bh mid0 o a v h =>
    obtain ⟨market, hm0, -, -, -, hpos0, -, -, hs'⟩ := placeBet_ok_inv h
    subst hs'
    constructor
    · intro mid m hm
      dsimp only [] at hm ⊢
      by_cases he : mid = mid0
      · subst he; exact hbound mid market hm0
      · rw [if_neg he] at hm; exact hbound mid m hm
    · intro mid u b hb
      dsimp only [] at hb ⊢
      by_cases hk : mid = mid0 ∧ u = caller
      · rw [if_pos hk] at hb
        injection hb with hb
        obtain ⟨h1, -⟩ := hk
        subst h1
        subst hb
        exact ⟨_, by rw [if_pos rfl], hpos0, matchingPool_update_self market o a⟩
      · rw [if_neg hk] at hb
        obtain ⟨m, hm, hposb, hle⟩ := hbets mid u b hb
        by_cases he : mid = mid0
        · subst he
          rw [hm0] at hm
          injection hm with hm
          subst hm
          exact ⟨_, by rw [if_pos rfl], hposb,
            le_trans hle (matchingPool_update_mono market o b.outcome a)⟩
        · exact ⟨m, by rw [if_neg he]; exact hm, hposb, hle⟩
  | claimM caller mid0 v h =>
    obtain ⟨hmk, hnonce, market, bet, wo, hm0, hb0, hw0, -, -, -, hbets1⟩ :=
      claimWinnings_ok_inv h
    constructor
    · intro mid m hm
      rw [hmk] at hm
      rw [hnonce]
      exact hbound mid m hm
    · intro mid u b hb
      rw [hbets1] at hb
      dsimp only [] at hb
      by_cases hk : mid = mid0 ∧ u = caller
      · rw [if_pos hk] at hb
        injection hb with hb
        obtain ⟨h1, -⟩ := hk
        subst h1
        subst hb
        obtain ⟨m, hm, hposb, hle⟩ := hbets mid caller bet hb0
        exact ⟨m, by rw [hmk]; exact hm, hposb, by simpa [matchingPool] using hle⟩
      · rw [if_neg hk] at hb
        obtain ⟨m, hm, hposb, hle⟩ := hbets mid u b hb
        exact ⟨m, by rw [hmk]; exact hm, hposb, hle⟩
  | fundM caller a v h =>
    obtain ⟨-, -, hs'⟩ := fundTreasury_ok_inv h
    subst hs'
    exact ⟨hbound, hbets⟩

/-- Every reachable ledger state satisfies the invariant. -/
theorem reachable_inv {env : Env} {s : LedgerState}
    (h : Reachable env s) : Inv s := by
  induction h with
  | genesis bal => exact inv_initial bal
  | step hr hst ih => exact inv_step ih hst

/-- C10: in every reachable state, whenever claim-winnings reaches the win
branch, the winning-pool divisor is at least the claimer's own positive bet
amount, hence strictly positive — the share division never divides by
zero, with no assumption that the two outcome labels differ. -/
theorem winning_pool_positive {env : Env} {s : LedgerState}
    {caller mid : Nat} {market : Market} {bet : Bet} {wo : String}
    (hr : Reachable env s)
    (hm : s.markets mid = some market) (hb : s.bets mid caller = some bet)
    (_hw : market.winningOutcome = some wo) (_hres : market.resolved = true)
    (_hcl : bet.claimed = false) (hwin : bet.outcome = wo) :
    0 < bet.amount ∧
    bet.amount ≤ (if wo = market.outcomeA then market.poolA else market.poolB) ∧
    0 < (if wo = market.outcomeA then market.poolA else market.poolB) := by
  obtain ⟨-, hbets⟩ := reachable_inv hr
  obtain ⟨m, hm2, hpos, hle⟩ := hbets mid caller bet hb
  rw [hm] at hm2
  injection hm2 with he
  subst he
  rw [hwin] at hle
  unfold matchingPool at hle
  exact ⟨hpos, hle, lt_of_lt_of_le hpos hle⟩

/-- C10 witness: the demo scenario state, reached by explicit successful
calls from deployment, with user 1's winning YES bet. -/
theorem winning_pool_positive_witness :
    0 < demoBet1.amount ∧
    demoBet1.amount ≤
      (if "YES" = demoMarket.outcomeA then demoMarket.poolA else demoMarket.poolB) ∧
    0 < (if "YES" = demoMarket.outcomeA then demoMarket.poolA else demoMarket.poolB) := by
  have h1 : createMarket demoEnv 0 0 "CRYPTO" "Q" "YES" "NO" 10 demoS0 =
      .ok (1, demoS1) := rfl
  have h2 : placeBet demoEnv 1 0 1 "YES" 1000 demoS1 = .ok (true, demoS2) := rfl
  have h3 : placeBet demoEnv 2 0 1 "NO" 1000 demoS2 = .ok (true, demoS3) := rfl
  have h4 : resolveMarket demoEnv 0 1 "YES" demoS3 = .ok (true, demoS4) := rfl
  have r4 : Reachable demoEnv demoS4 :=
    ((((Reachable.genesis demoBal).step
        (Step.createM 0 0 "CRYPTO" "Q" "YES" "NO" 10 1 h1)).step
        (Step.betM 1 0 1 "YES" 1000 true h2)).step
        (Step.betM 2 0 1 "NO" 1000 true h3)).step
      (Step.resolveM 0 1 "YES" true h4)
  exact winning_pool_positive r4
    (show demoS4.markets 1 = some demoMarket from rfl)
    (show demoS4.bets 1 1 = some demoBet1 from rfl) rfl rfl rfl rfl

end Clarprice
